import Mathlib

/-!
Shallow embedding of the inventory/usage accounting core of the
Fragrance-Collection-Tracker repository.

The embedding follows `InventoryService` (inventory service source),
`CalendarServiceImpl.recordDailyWear` (calendar.service.ts),
`InventoryController` (inventory.controller.ts) and the repositories in
models/index.ts.  Numbers are modelled as exact rationals, dates at day
granularity as integers (the repositories store only the `YYYY-MM-DD`
date part), and the database as explicit lists of rows.  JavaScript's
falsy test `x || d` on an optional number is modelled on `Option ℚ` as
"`d` when the field is `none` or `some 0`, otherwise the value".
-/

namespace FragTracker

/-- `estimatedDaysRemaining` as computed by `calculateRemainingDays`:
a finite number of days, or JavaScript `Infinity`. -/
inductive EstDays where
  | finite (n : ℤ)
  | infinite
deriving DecidableEq

/-- One row of the `inventory` table (interface `Inventory` in types). -/
structure Inventory where
  id : String
  fragranceId : String
  bottleSize : ℚ
  currentLevel : ℚ
  usageTracking : Bool
  lowThreshold : ℚ
  estimatedDaysRemaining : Option EstDays
deriving DecidableEq

/-- One row of the `usage_entries` table (interface `UsageEntry`).
`estimatedUsage` is optional in the row type; the date is stored at day
granularity. -/
structure UsageEntry where
  fragranceId : String
  date : ℤ
  sprayCount : ℕ
  estimatedUsage : Option ℚ
  notes : Option String
deriving DecidableEq

/-- List type of a fragrance (`'owned' | 'tried' | 'wishlist'`). -/
inductive ListType where
  | owned
  | tried
  | wishlist
deriving DecidableEq

/-- The fields of a `fragrances` row used by the inventory core. -/
structure Fragrance where
  id : String
  userId : String
  name : String
  brand : String
  listType : ListType
deriving DecidableEq

/-- One wear entry inside a daily-wear record (`DailyWearEntry`). -/
structure DailyWearEntry where
  fragranceId : String
  sprayCount : Option ℕ
  notes : Option String
deriving DecidableEq

/-- A `daily_wear` row together with its entries (`DailyWear`). -/
structure DailyWear where
  userId : String
  date : ℤ
  entries : List DailyWearEntry
deriving DecidableEq

/-- The persistent state reachable through `RepositoryFactory`. -/
structure Store where
  fragrances : List Fragrance
  inventories : List Inventory
  usageLog : List UsageEntry
  dailyWears : List DailyWear
deriving DecidableEq

/-- `InventoryService.SPRAY_TO_ML_RATIO = 0.1`. -/
def mlPerSpray : ℚ := 1/10

/-- `InventoryService.DEFAULT_LOW_THRESHOLD = 20`. -/
def defaultLowThreshold : ℚ := 20

/-- `usage.estimatedUsage || usage.sprayCount * SPRAY_TO_ML_RATIO`:
the JavaScript falsy-or, so an absent value and an explicit `0` both
fall back to the spray-count estimate. -/
def usageAmount (estimatedUsage : Option ℚ) (sprayCount : ℕ) : ℚ :=
  match estimatedUsage with
  | some u => if u = 0 then (sprayCount : ℚ) * mlPerSpray else u
  | none => (sprayCount : ℚ) * mlPerSpray

/-- `inventoryRepo.findByFragranceId` (`SELECT * FROM inventory WHERE
fragrance_id = ?`, first row). -/
def findInventory (s : Store) (fid : String) : Option Inventory :=
  s.inventories.find? (fun i => i.fragranceId == fid)

/-- `usageRepo.findByFragranceAndDateRange(fid, thirtyDaysAgo, now)`:
the rows of the usage log for this fragrance whose date lies in the
inclusive trailing 30-day window. -/
def usageInWindow (s : Store) (today : ℤ) (fid : String) : List UsageEntry :=
  s.usageLog.filter
    (fun e => e.fragranceId == fid && decide (today - 30 ≤ e.date) && decide (e.date ≤ today))

/-- `recentUsage.reduce((sum, entry) => sum + (entry.estimatedUsage ||
entry.sprayCount * SPRAY_TO_ML_RATIO), 0)`. -/
def totalUsage (entries : List UsageEntry) : ℚ :=
  entries.foldl (fun sum e => sum + usageAmount e.estimatedUsage e.sprayCount) 0

/-- `new Set(recentUsage.map(entry => entry.date.toDateString())).size`:
the number of distinct calendar dates among the entries. -/
def daysWithUsage (entries : List UsageEntry) : ℕ :=
  ((entries.map (fun e => e.date)).dedup).length

/-- `InventoryService.calculateRemainingDays`. -/
def calculateRemainingDays (s : Store) (today : ℤ) (fid : String) : EstDays :=
  match findInventory s fid with
  | none => .finite 0
  | some inv =>
    if inv.currentLevel ≤ 0 then .finite 0
    else
      let recentUsage := usageInWindow s today fid
      if recentUsage.isEmpty then
        .finite ⌊((inv.currentLevel / 100) * inv.bottleSize) / (1/2 : ℚ)⌋
      else
        let total := totalUsage recentUsage
        let avg := total / (max (daysWithUsage recentUsage) 1 : ℕ)
        if avg ≤ 0 then .infinite
        else .finite (max 0 ⌊((inv.currentLevel / 100) * inv.bottleSize) / avg⌋)

/-- Errors raised by the service layer (thrown `Error`s in the source,
distinguished here by their message). -/
inductive ServiceError where
  | notFound (fid : String)
  | alreadyExists (fid : String)
  | updateFailed
deriving DecidableEq

/-- `...(x.notes && { notes: x.notes })`: the notes field is only set
when truthy (present and non-empty). -/
def keptNotes (notes : Option String) : Option String :=
  match notes with
  | some n => if n = "" then none else some n
  | none => none

/-- The usage row written by `updateInventory` before the level change:
`{ fragranceId, date, sprayCount, estimatedUsage: usage.estimatedUsage ||
sprayCount * SPRAY_TO_ML_RATIO, ...(usage.notes && { notes }) }`. -/
def mkLoggedEntry (fid : String) (usage : UsageEntry) : UsageEntry :=
  { fragranceId := fid
    date := usage.date
    sprayCount := usage.sprayCount
    estimatedUsage := some (usageAmount usage.estimatedUsage usage.sprayCount)
    notes := keptNotes usage.notes }

/-- `usageRepo.create`: append a row to the usage log. -/
def appendUsage (s : Store) (e : UsageEntry) : Store :=
  { s with usageLog := s.usageLog ++ [e] }

/-- `inventoryRepo.update(id, { currentLevel, estimatedDaysRemaining })`:
set both fields on every row with this primary key. -/
def writeInventoryRow (invs : List Inventory) (id : String) (newLevel : ℚ)
    (est : EstDays) : List Inventory :=
  invs.map (fun i =>
    if i.id == id then
      { i with currentLevel := newLevel, estimatedDaysRemaining := some est }
    else i)

/-- `InventoryService.updateInventory(fragranceId, usage)`: look the
record up, log the usage event, and — when tracking is enabled —
subtract the usage percentage and store a fresh estimate.  The estimate
is computed by `calculateRemainingDays` *before* the row update runs, so
it reads the stored (pre-subtraction) level together with the already
logged new event.  Returns the row the service returns, plus the store. -/
def updateInventory (s : Store) (today : ℤ) (fid : String) (usage : UsageEntry) :
    Except ServiceError (Inventory × Store) :=
  match findInventory s fid with
  | none => .error (.notFound fid)
  | some inv =>
    let s1 := appendUsage s (mkLoggedEntry fid usage)
    if inv.usageTracking then
      let amt := usageAmount usage.estimatedUsage usage.sprayCount
      let pct := amt / inv.bottleSize * 100
      let newLevel := max 0 (inv.currentLevel - pct)
      let est := calculateRemainingDays s1 today fid
      .ok ({ inv with currentLevel := newLevel, estimatedDaysRemaining := some est },
        { s1 with inventories := writeInventoryRow s1.inventories inv.id newLevel est })
    else
      .ok (inv, s1)

/-- `InventoryService.updateInventoryFromUsage(fragranceId, usage)`:
same level update as `updateInventory` but without creating the usage
row (the calendar service has already created it). -/
def updateInventoryFromUsage (s : Store) (today : ℤ) (fid : String)
    (usage : UsageEntry) : Except ServiceError (Inventory × Store) :=
  match findInventory s fid with
  | none => .error (.notFound fid)
  | some inv =>
    if inv.usageTracking then
      let amt := usageAmount usage.estimatedUsage usage.sprayCount
      let pct := amt / inv.bottleSize * 100
      let newLevel := max 0 (inv.currentLevel - pct)
      let est := calculateRemainingDays s today fid
      .ok ({ inv with currentLevel := newLevel, estimatedDaysRemaining := some est },
        { s with inventories := writeInventoryRow s.inventories inv.id newLevel est })
    else
      .ok (inv, s)

/-- Input of `createInventory` (`CreateInventoryDto`); the optional
numeric fields may be omitted or supplied. -/
structure CreateInventoryDto where
  fragranceId : String
  bottleSize : ℚ
  currentLevel : Option ℚ
  usageTracking : Option Bool
  lowThreshold : Option ℚ
deriving DecidableEq

/-- `InventoryService.createInventory`: reject if a record exists, else
insert with defaults `currentLevel || 100`, `usageTracking !== false`,
`lowThreshold || DEFAULT_LOW_THRESHOLD` (falsy-or on the numbers). -/
def createInventory (s : Store) (newId : String) (data : CreateInventoryDto) :
    Except ServiceError (Inventory × Store) :=
  match findInventory s data.fragranceId with
  | some _ => .error (.alreadyExists data.fragranceId)
  | none =>
    let inv : Inventory :=
      { id := newId
        fragranceId := data.fragranceId
        bottleSize := data.bottleSize
        currentLevel := match data.currentLevel with
          | some l => if l = 0 then 100 else l
          | none => 100
        usageTracking := match data.usageTracking with
          | some false => false
          | _ => true
        lowThreshold := match data.lowThreshold with
          | some t => if t = 0 then defaultLowThreshold else t
          | none => defaultLowThreshold
        estimatedDaysRemaining := none }
    .ok (inv, { s with inventories := s.inventories ++ [inv] })

/-- The JSON envelope status the HTTP layer sends back. -/
structure HttpResponse where
  status : ℕ
  success : Bool
  errorCode : Option String
deriving DecidableEq

/-- `InventoryController.createInventory`: 201 on success; every thrown
service error is caught by the single `catch` block and answered with
status 500 and code `INTERNAL_ERROR`, leaving the store untouched. -/
def createInventoryHttp (s : Store) (newId : String) (data : CreateInventoryDto) :
    HttpResponse × Store :=
  match createInventory s newId data with
  | .ok (_, s1) => ({ status := 201, success := true, errorCode := none }, s1)
  | .error _ => ({ status := 500, success := false, errorCode := some "INTERNAL_ERROR" }, s)

/-- One element of the list `getLowInventoryAlerts` returns. -/
structure LowInventoryAlert where
  fragranceId : String
  name : String
  brand : String
  currentLevel : ℚ
  threshold : ℚ
  estimatedDaysRemaining : Option EstDays
deriving DecidableEq

/-- The alert built for fragrance `f` from its inventory row. -/
def mkAlert (f : Fragrance) (inv : Inventory) : LowInventoryAlert :=
  { fragranceId := f.id
    name := f.name
    brand := f.brand
    currentLevel := inv.currentLevel
    threshold := inv.lowThreshold
    estimatedDaysRemaining := inv.estimatedDaysRemaining }

/-- `fragranceRepo.findByUserId(userId, { listType: 'owned' })`. -/
def ownedFragrances (s : Store) (userId : String) : List Fragrance :=
  s.fragrances.filter (fun f => f.userId == userId && decide (f.listType = ListType.owned))

/-- `InventoryService.getLowInventoryAlerts(userId)`: collect an alert
for every owned fragrance whose inventory row exists and satisfies
`currentLevel <= lowThreshold`, then sort ascending by level (the
JavaScript stable sort with comparator `a.currentLevel - b.currentLevel`). -/
def getLowInventoryAlerts (s : Store) (userId : String) : List LowInventoryAlert :=
  let alerts := (ownedFragrances s userId).filterMap (fun f =>
    match findInventory s f.id with
    | some inv =>
      if inv.currentLevel ≤ inv.lowThreshold then some (mkAlert f inv) else none
    | none => none)
  alerts.mergeSort (fun a b => decide (a.currentLevel ≤ b.currentLevel))

/-- Input of `recordDailyWear` (`CreateDailyWearDto`), reduced to the
fields the inventory core reads. -/
structure CreateDailyWearDto where
  date : ℤ
  entries : List DailyWearEntry
deriving DecidableEq

/-- `CalendarServiceImpl.calculateEstimatedUsage`. -/
def calculateEstimatedUsage (sprayCount : ℕ) : ℚ := (sprayCount : ℚ) * mlPerSpray

/-- The body of the per-entry loop in `recordDailyWear`: create the
usage row, then call `updateInventoryFromUsage` inside `try`/`catch`
where an error is only logged and the store from before the failed call
is kept. -/
def processWearEntry (today : ℤ) (date : ℤ) (s : Store) (entry : DailyWearEntry) : Store :=
  match entry.sprayCount with
  | some n =>
    if 0 < n then
      let e : UsageEntry :=
        { fragranceId := entry.fragranceId
          date := date
          sprayCount := n
          estimatedUsage := some (calculateEstimatedUsage n)
          notes := keptNotes entry.notes }
      let s1 := appendUsage s e
      match updateInventoryFromUsage s1 today entry.fragranceId e with
      | .ok (_, s2) => s2
      | .error _ => s1
    else s
  | none => s

/-- `CalendarServiceImpl.recordDailyWear(userId, date, data)`: reject a
second record for the same user and day, otherwise create the daily-wear
record and run the per-entry inventory bookkeeping loop. -/
def recordDailyWear (s : Store) (today : ℤ) (userId : String) (date : ℤ)
    (data : CreateDailyWearDto) : Except String (DailyWear × Store) :=
  if s.dailyWears.any (fun w => w.userId == userId && w.date == date) then
    .error "Daily wear entry already exists for this date. Use update instead."
  else
    let wear : DailyWear := { userId := userId, date := date, entries := data.entries }
    let s1 := { s with dailyWears := s.dailyWears ++ [wear] }
    let s2 := data.entries.foldl (processWearEntry today date) s1
    .ok (wear, s2)

/-- A sequence of direct `ApplyUsage` calls: each call that returns a
result commits its store, each call that throws leaves the store as it
was (`updateInventory` throws `NotFound` before writing anything). -/
def applyUsageSeq (s : Store) (today : ℤ) (calls : List (String × UsageEntry)) : Store :=
  calls.foldl (fun acc c =>
    match updateInventory acc today c.1 c.2 with
    | .ok r => r.2
    | .error _ => acc) s

/-! ### Claim-side (spec-worded) definitions -/

/-- The spec's `totalUsageMl`: sum of each window event's
`estimatedUsageMl`, or `sprayCount × 0.1` where missing. -/
def totalUsageMl (entries : List UsageEntry) : ℚ :=
  (entries.map (fun e => e.estimatedUsage.getD ((e.sprayCount : ℚ) * mlPerSpray))).sum

/-- The spec's `usageMl` for a single `ApplyUsage` call: the event's
`estimatedUsageMl`, or `sprayCount × 0.1` when not supplied. -/
def specUsageMl (usage : UsageEntry) : ℚ :=
  usage.estimatedUsage.getD ((usage.sprayCount : ℚ) * mlPerSpray)

/-! ### Helper lemmas -/

theorem usageAmount_eq_getD (est : Option ℚ) (n : ℕ)
    (h : ∀ q, est = some q → q ≠ 0) :
    usageAmount est n = est.getD ((n : ℚ) * mlPerSpray) := by
  cases est with
  | none => rfl
  | some q => simp [usageAmount, h q rfl]

theorem usageAmount_pos (est : Option ℚ) (n : ℕ) (hn : 0 < n)
    (h : ∀ q, est = some q → 0 < q) :
    0 < usageAmount est n := by
  have hfall : 0 < (n : ℚ) * mlPerSpray :=
    mul_pos (by exact_mod_cast hn) (by norm_num [mlPerSpray])
  cases est with
  | none => simpa [usageAmount] using hfall
  | some q =>
    by_cases hq : q = 0
    · simpa [usageAmount, hq] using hfall
    · simpa [usageAmount, hq] using h q rfl

theorem usageAmount_nonneg (est : Option ℚ) (n : ℕ)
    (h : ∀ q, est = some q → 0 ≤ q) :
    0 ≤ usageAmount est n := by
  have hfall : 0 ≤ (n : ℚ) * mlPerSpray :=
    mul_nonneg (Nat.cast_nonneg n) (by norm_num [mlPerSpray])
  cases est with
  | none => simpa [usageAmount] using hfall
  | some q =>
    by_cases hq : q = 0
    · simpa [usageAmount, hq] using hfall
    · simpa [usageAmount, hq] using h q rfl

theorem foldl_add_usage (l : List UsageEntry) (a : ℚ) :
    l.foldl (fun sum e => sum + usageAmount e.estimatedUsage e.sprayCount) a
      = a + (l.map (fun e => usageAmount e.estimatedUsage e.sprayCount)).sum := by
  induction l generalizing a with
  | nil => simp
  | cons e t ih => simp [List.foldl_cons, ih]; ring

theorem totalUsage_eq_sum (l : List UsageEntry) :
    totalUsage l = (l.map (fun e => usageAmount e.estimatedUsage e.sprayCount)).sum := by
  simpa using foldl_add_usage l 0

theorem totalUsage_eq_totalUsageMl (l : List UsageEntry)
    (h : ∀ e ∈ l, ∀ q, e.estimatedUsage = some q → q ≠ 0) :
    totalUsage l = totalUsageMl l := by
  rw [totalUsage_eq_sum, totalUsageMl]
  exact congrArg List.sum (List.map_congr_left (fun e he =>
    usageAmount_eq_getD e.estimatedUsage e.sprayCount (h e he)))

theorem totalUsage_pos (l : List UsageEntry) (hne : l ≠ [])
    (h : ∀ e ∈ l, 0 < e.sprayCount ∧ ∀ q, e.estimatedUsage = some q → 0 < q) :
    0 < totalUsage l := by
  rw [totalUsage_eq_sum]
  refine List.sum_pos _ (fun x hx => ?_) (by simpa using hne)
  obtain ⟨e, he, rfl⟩ := List.mem_map.1 hx
  exact usageAmount_pos _ _ (h e he).1 (h e he).2

/-! ### C1: the window-average estimate formula -/

/-- C1.  When the record is found with a positive level and the trailing
30-day window holds at least one event, all events valid (positive spray
count, positive supplied ml), `calculateRemainingDays` returns
`floor(remainingMl / averageDailyUsageMl)` floored at 0, with
`averageDailyUsageMl = totalUsageMl / max(distinctUsageDays, 1)`,
`totalUsageMl` the sum of the events' `estimatedUsageMl` (or
`sprayCount × 0.1` where missing) and `distinctUsageDays` the number of
distinct calendar dates with an event. -/
theorem calculateRemainingDays_window_formula
    (s : Store) (today : ℤ) (fid : String) (inv : Inventory)
    (hfind : findInventory s fid = some inv)
    (hlvl : 0 < inv.currentLevel)
    (hne : usageInWindow s today fid ≠ [])
    (hvalid : ∀ e ∈ usageInWindow s today fid,
      0 < e.sprayCount ∧ ∀ q, e.estimatedUsage = some q → 0 < q) :
    calculateRemainingDays s today fid =
      .finite (max 0 ⌊(inv.currentLevel / 100 * inv.bottleSize) /
        (totalUsageMl (usageInWindow s today fid) /
          (max (daysWithUsage (usageInWindow s today fid)) 1 : ℕ))⌋) := by
  have htot : 0 < totalUsage (usageInWindow s today fid) :=
    totalUsage_pos _ hne hvalid
  have havg : 0 < totalUsage (usageInWindow s today fid) /
      (max (daysWithUsage (usageInWindow s today fid)) 1 : ℕ) := by
    apply div_pos htot
    have : 0 < max (daysWithUsage (usageInWindow s today fid)) 1 :=
      lt_of_lt_of_le Nat.one_pos (le_max_right _ _)
    exact_mod_cast this
  have heq : totalUsage (usageInWindow s today fid)
      = totalUsageMl (usageInWindow s today fid) :=
    totalUsage_eq_totalUsageMl _ (fun e he q hq => ne_of_gt ((hvalid e he).2 q hq))
  rw [heq] at havg
  unfold calculateRemainingDays
  rw [hfind]
  simp only [not_le.mpr hlvl, if_false, List.isEmpty_eq_false.mpr hne,
    Bool.false_eq_true, heq]
  rw [if_neg (not_le.mpr havg)]

/-- Witness for C1: level 50% of a 100ml bottle, two events on two
distinct days totaling 0.8ml, gives 125 days. -/
def c1Inv : Inventory :=
  { id := "i1", fragranceId := "f1", bottleSize := 100, currentLevel := 50,
    usageTracking := true, lowThreshold := 20, estimatedDaysRemaining := none }

def c1EntryA : UsageEntry :=
  { fragranceId := "f1", date := 0, sprayCount := 5, estimatedUsage := some (1/2),
    notes := none }

def c1EntryB : UsageEntry :=
  { fragranceId := "f1", date := 1, sprayCount := 3, estimatedUsage := some (3/10),
    notes := none }

def c1Store : Store :=
  { fragrances := [], inventories := [c1Inv], usageLog := [c1EntryA, c1EntryB],
    dailyWears := [] }

theorem calculateRemainingDays_window_formula_witness :
    calculateRemainingDays c1Store 1 "f1" = .finite 125 := by
  have hwin : usageInWindow c1Store 1 "f1" = [c1EntryA, c1EntryB] := rfl
  have h := calculateRemainingDays_window_formula c1Store 1 "f1" c1Inv rfl
    (by norm_num [c1Inv])
    (by rw [hwin]; exact List.cons_ne_nil _ _)
    (by rw [hwin]; norm_num [c1EntryA, c1EntryB])
  rw [h, hwin]
  norm_num [c1EntryA, c1EntryB, c1Inv, totalUsageMl, daysWithUsage, List.dedup]

/-! ### C6: the conservative no-usage default -/

/-- C6.  When the record is found with a positive level and the trailing
30-day window holds no events, `calculateRemainingDays` returns
`floor(remainingMl / 0.5)` with `remainingMl = currentLevelPercent/100 ×
bottleSizeMl`. -/
theorem calculateRemainingDays_no_usage_default
    (s : Store) (today : ℤ) (fid : String) (inv : Inventory)
    (hfind : findInventory s fid = some inv)
    (hlvl : 0 < inv.currentLevel)
    (hwin : usageInWindow s today fid = []) :
    calculateRemainingDays s today fid =
      .finite ⌊(inv.currentLevel / 100 * inv.bottleSize) / (1/2 : ℚ)⌋ := by
  unfold calculateRemainingDays
  rw [hfind]
  simp only [not_le.mpr hlvl, if_false, hwin, List.isEmpty_nil, if_true]

/-- Witness for C6: level 50% of a 100ml bottle with no usage in the
window gives 100 days. -/
def c6Store : Store :=
  { fragrances := [], inventories := [c1Inv], usageLog := [], dailyWears := [] }

theorem calculateRemainingDays_no_usage_default_witness :
    calculateRemainingDays c6Store 1 "f1" = .finite 100 := by
  have h := calculateRemainingDays_no_usage_default c6Store 1 "f1" c1Inv rfl
    (by norm_num [c1Inv]) rfl
  rw [h]
  norm_num [c1Inv]

/-! ### C2: the level-subtraction formula of ApplyUsage -/

/-- C2.  On an existing record with tracking enabled, with the usage
milliliters either not supplied or supplied positive, the returned and
persisted `currentLevelPercent` equals
`max(0, previousLevel − (usageMl / bottleSizeMl) × 100)` where `usageMl`
is the event's `estimatedUsageMl` or `sprayCount × 0.1` when not
supplied. -/
theorem updateInventory_level_formula
    (s : Store) (today : ℤ) (fid : String) (usage : UsageEntry) (inv : Inventory)
    (hfind : findInventory s fid = some inv)
    (htrack : inv.usageTracking = true)
    (_hsize : 0 < inv.bottleSize)
    (hest : usage.estimatedUsage = none ∨ ∃ u, usage.estimatedUsage = some u ∧ 0 < u) :
    (Except.map (fun r => r.1.currentLevel) (updateInventory s today fid usage)
      = .ok (max 0 (inv.currentLevel - specUsageMl usage / inv.bottleSize * 100)))
    ∧ ∀ r, updateInventory s today fid usage = .ok r →
        ∀ j ∈ r.2.inventories, j.id = inv.id →
          j.currentLevel
            = max 0 (inv.currentLevel - specUsageMl usage / inv.bottleSize * 100) := by
  have hne : ∀ q, usage.estimatedUsage = some q → q ≠ 0 := by
    intro q hq
    rcases hest with h0 | ⟨u, hu, hupos⟩
    · rw [h0] at hq; cases hq
    · rw [hu] at hq; cases hq; exact ne_of_gt hupos
  have hamt : usageAmount usage.estimatedUsage usage.sprayCount = specUsageMl usage :=
    usageAmount_eq_getD _ _ hne
  constructor
  · unfold updateInventory
    rw [hfind]
    simp [htrack, hamt, Except.map]
  · intro r hr j hj hid
    unfold updateInventory at hr
    rw [hfind] at hr
    simp only [htrack, if_true] at hr
    cases hr
    simp only [writeInventoryRow, List.mem_map] at hj
    obtain ⟨i, _, rfl⟩ := hj
    by_cases hi : i.id == inv.id
    · simp [hi, hamt]
    · rw [if_neg hi] at hid ⊢
      exact absurd hid (by simpa using hi)

/-- Witness for C2: bottle 100ml at level 80%, a 5-spray event with no
explicit ml, yields new level 79.5. -/
def c2Inv : Inventory :=
  { id := "i1", fragranceId := "f1", bottleSize := 100, currentLevel := 80,
    usageTracking := true, lowThreshold := 20, estimatedDaysRemaining := none }

def c2Store : Store :=
  { fragrances := [], inventories := [c2Inv], usageLog := [], dailyWears := [] }

def c2Usage : UsageEntry :=
  { fragranceId := "f1", date := 0, sprayCount := 5, estimatedUsage := none,
    notes := none }

theorem updateInventory_level_formula_witness :
    Except.map (fun r => r.1.currentLevel) (updateInventory c2Store 0 "f1" c2Usage)
      = .ok (159/2 : ℚ) := by
  have h := (updateInventory_level_formula c2Store 0 "f1" c2Usage c2Inv rfl rfl
    (by norm_num [c2Inv]) (Or.inl rfl)).1
  rw [h]
  norm_num [c2Inv, specUsageMl, c2Usage, mlPerSpray]

/-! ### C3: which state the re-estimation reads -/

def c3Inv : Inventory :=
  { id := "i1", fragranceId := "f1", bottleSize := 100, currentLevel := 100,
    usageTracking := true, lowThreshold := 20, estimatedDaysRemaining := none }

def c3Store : Store :=
  { fragrances := [], inventories := [c3Inv], usageLog := [], dailyWears := [] }

def c3Usage : UsageEntry :=
  { fragranceId := "f1", date := 0, sprayCount := 1, estimatedUsage := some 50,
    notes := none }

/-- Counterexample to C3: at level 100% of a 100ml bottle, applying a
50ml usage event persists the cached estimate 2 (computed from the
pre-subtraction level 100%), while the Estimator applied to the
post-usage store (level 50%, the event logged) yields 1. -/
theorem updateInventory_estimate_stale_cex :
    Except.map (fun r => (r.1.estimatedDaysRemaining, calculateRemainingDays r.2 0 "f1"))
      (updateInventory c3Store 0 "f1" c3Usage)
      = .ok (some (.finite 2), .finite 1)
    ∧ (some (EstDays.finite 2) : Option EstDays) ≠ some (.finite 1) := by
  constructor
  · norm_num [updateInventory, findInventory, c3Store, c3Inv, c3Usage, mkLoggedEntry,
      appendUsage, usageAmount, calculateRemainingDays, usageInWindow, totalUsage,
      daysWithUsage, writeInventoryRow, mlPerSpray, List.filter, List.dedup, Except.map]
  · simp

/-- C3 as amended: the estimate persisted by `ApplyUsage` is the
Estimator's result on the usage log that already contains the new event,
but computed from the pre-subtraction `currentLevelPercent` (the
repository still holds the old row when `calculateRemainingDays` runs). -/
theorem updateInventory_estimate_uses_pre_level
    (s : Store) (today : ℤ) (fid : String) (usage : UsageEntry) (inv : Inventory)
    (hfind : findInventory s fid = some inv)
    (htrack : inv.usageTracking = true) :
    (Except.map (fun r => r.1.estimatedDaysRemaining) (updateInventory s today fid usage)
      = .ok (some (calculateRemainingDays (appendUsage s (mkLoggedEntry fid usage)) today fid)))
    ∧ Except.map (fun r => r.1.estimatedDaysRemaining)
        (updateInventoryFromUsage s today fid usage)
      = .ok (some (calculateRemainingDays s today fid)) := by
  constructor
  · unfold updateInventory
    rw [hfind]
    simp [htrack, Except.map]
  · unfold updateInventoryFromUsage
    rw [hfind]
    simp [htrack, Except.map]

theorem updateInventory_estimate_uses_pre_level_witness :
    Except.map (fun r => r.1.estimatedDaysRemaining) (updateInventory c3Store 0 "f1" c3Usage)
      = .ok (some (.finite 2)) := by
  have h := (updateInventory_estimate_uses_pre_level c3Store 0 "f1" c3Usage c3Inv rfl rfl).1
  rw [h]
  norm_num [calculateRemainingDays, findInventory, appendUsage, mkLoggedEntry, c3Store,
    c3Inv, c3Usage, usageInWindow, totalUsage, daysWithUsage, usageAmount, mlPerSpray,
    List.filter, List.dedup]

/-! ### C5: disabled tracking leaves the record alone -/

/-- C5.  On a record with `usageTrackingEnabled = false`, `ApplyUsage`
returns the record unchanged and the store is only extended by the
logged usage event: the inventory table is untouched. -/
theorem updateInventory_tracking_disabled
    (s : Store) (today : ℤ) (fid : String) (usage : UsageEntry) (inv : Inventory)
    (hfind : findInventory s fid = some inv)
    (htrack : inv.usageTracking = false) :
    updateInventory s today fid usage
      = .ok (inv, { s with usageLog := s.usageLog ++ [mkLoggedEntry fid usage] }) := by
  unfold updateInventory
  rw [hfind]
  simp [htrack, appendUsage]

/-- Witness for C5 at a concrete store with tracking disabled. -/
def c5Inv : Inventory :=
  { id := "i1", fragranceId := "f1", bottleSize := 100, currentLevel := 80,
    usageTracking := false, lowThreshold := 20, estimatedDaysRemaining := none }

def c5Store : Store :=
  { fragrances := [], inventories := [c5Inv], usageLog := [], dailyWears := [] }

theorem updateInventory_tracking_disabled_witness :
    updateInventory c5Store 0 "f1" c2Usage
      = .ok (c5Inv,
          { fragrances := [], inventories := [c5Inv],
            usageLog := [mkLoggedEntry "f1" c2Usage], dailyWears := [] }) :=
  (updateInventory_tracking_disabled c5Store 0 "f1" c2Usage c5Inv rfl rfl).trans rfl

/-! ### C4: the 0–100 level invariant -/

/-- Every inventory row's level lies in `[0, 100]`. -/
def LevelsInRange (s : Store) : Prop :=
  ∀ inv ∈ s.inventories, 0 ≤ inv.currentLevel ∧ inv.currentLevel ≤ 100

/-- Every inventory row has a positive bottle size (the data model's
`bottleSizeMl: positive number`, enforced by input validation). -/
def BottlesPos (s : Store) : Prop :=
  ∀ inv ∈ s.inventories, 0 < inv.bottleSize

/-- A valid `ApplyUsage` input: positive spray count and non-negative
usage milliliters when supplied. -/
def ValidUsage (u : UsageEntry) : Prop :=
  0 < u.sprayCount ∧ ∀ q, u.estimatedUsage = some q → 0 ≤ q

theorem updateInventory_ok_preserves
    (s : Store) (today : ℤ) (fid : String) (usage : UsageEntry)
    (hB : BottlesPos s) (hL : LevelsInRange s) (hu : ValidUsage usage)
    (r : Inventory × Store) (hr : updateInventory s today fid usage = .ok r) :
    BottlesPos r.2 ∧ LevelsInRange r.2 := by
  unfold updateInventory at hr
  cases hfind : findInventory s fid with
  | none => rw [hfind] at hr; exact Except.noConfusion hr
  | some inv =>
    rw [hfind] at hr
    have hinv : inv ∈ s.inventories := List.mem_of_find?_eq_some hfind
    cases htrack : inv.usageTracking with
    | false =>
      simp only [htrack, Bool.false_eq_true, if_false] at hr
      cases hr
      exact ⟨hB, hL⟩
    | true =>
      simp only [htrack, if_true] at hr
      cases hr
      have hpct : 0 ≤ usageAmount usage.estimatedUsage usage.sprayCount
          / inv.bottleSize * 100 := by
        apply mul_nonneg _ (by norm_num)
        exact div_nonneg (usageAmount_nonneg _ _ hu.2) (le_of_lt (hB inv hinv))
      constructor
      · intro j hj
        simp only [writeInventoryRow, appendUsage, List.mem_map] at hj
        obtain ⟨i, hi, rfl⟩ := hj
        by_cases hid : (i.id == inv.id) = true
        · rw [if_pos hid]; exact hB i hi
        · rw [if_neg hid]; exact hB i hi
      · intro j hj
        simp only [writeInventoryRow, appendUsage, List.mem_map] at hj
        obtain ⟨i, hi, rfl⟩ := hj
        by_cases hid : (i.id == inv.id) = true
        · rw [if_pos hid]
          refine ⟨le_max_left _ _, ?_⟩
          apply max_le (by norm_num)
          have := (hL inv hinv).2
          linarith
        · rw [if_neg hid]
          exact hL i hi

/-- C4.  Starting from a store whose levels are all in `[0, 100]` and
whose bottle sizes are positive, any finite sequence of `ApplyUsage`
calls with valid inputs keeps every level in `[0, 100]`; since every
prefix of the sequence is itself such a sequence, the invariant holds
after every call. -/
theorem applyUsageSeq_level_invariant
    (s : Store) (today : ℤ) (calls : List (String × UsageEntry))
    (hB : BottlesPos s) (hL : LevelsInRange s)
    (hcalls : ∀ c ∈ calls, ValidUsage c.2) :
    LevelsInRange (applyUsageSeq s today calls) := by
  induction calls generalizing s with
  | nil => exact hL
  | cons c t ih =>
    have hc : ValidUsage c.2 := hcalls c (List.mem_cons_self c t)
    have ht : ∀ d ∈ t, ValidUsage d.2 := fun d hd => hcalls d (List.mem_cons_of_mem c hd)
    unfold applyUsageSeq
    rw [List.foldl_cons]
    cases hr : updateInventory s today c.1 c.2 with
    | ok r =>
      have hp := updateInventory_ok_preserves s today c.1 c.2 hB hL hc r hr
      have := ih r.2 hp.1 hp.2 ht
      simpa [applyUsageSeq, hr] using this
    | error e =>
      have := ih s hB hL ht
      simpa [applyUsageSeq, hr] using this

/-- Witness for C4: a valid two-call sequence on a concrete store keeps
the level in range. -/
def c4Calls : List (String × UsageEntry) := [("f1", c2Usage), ("f1", c2Usage)]

theorem applyUsageSeq_level_invariant_witness :
    LevelsInRange (applyUsageSeq c2Store 0 c4Calls) :=
  applyUsageSeq_level_invariant c2Store 0 c4Calls
    (by intro inv hinv; simp [c2Store] at hinv; norm_num [hinv, c2Inv])
    (by intro inv hinv; simp [c2Store] at hinv; norm_num [hinv, c2Inv])
    (by intro c hc; simp [c4Calls] at hc; simp [hc, ValidUsage, c2Usage])

/-! ### C7: duplicate inventory creation -/

def c7Dto : CreateInventoryDto :=
  { fragranceId := "f1", bottleSize := 50, currentLevel := none,
    usageTracking := none, lowThreshold := none }

/-- Counterexample to C7's HTTP half: creating inventory for the
fragrance `"f1"` that already has one is answered with status 500 and
code `INTERNAL_ERROR`, not with CONFLICT 409 — the controller's single
catch block maps every service error to 500 (its unit test asserts the
same). -/
theorem createInventoryHttp_conflict_cex :
    (createInventoryHttp c2Store "i2" c7Dto).1.status = 500
    ∧ (createInventoryHttp c2Store "i2" c7Dto).1.errorCode = some "INTERNAL_ERROR"
    ∧ (createInventoryHttp c2Store "i2" c7Dto).1.status ≠ 409 :=
  ⟨rfl, rfl, by decide⟩

/-- C7 as amended: creating inventory for a fragrance that already has a
record fails with `AlreadyExists` and mutates nothing, and the HTTP
boundary reports the failure as `INTERNAL_ERROR` with status 500 (not
CONFLICT 409, which this controller never produces). -/
theorem createInventory_alreadyExists
    (s : Store) (newId : String) (data : CreateInventoryDto)
    (h : ∃ inv ∈ s.inventories, inv.fragranceId = data.fragranceId) :
    createInventory s newId data = .error (.alreadyExists data.fragranceId)
    ∧ (createInventoryHttp s newId data).1
        = { status := 500, success := false, errorCode := some "INTERNAL_ERROR" }
    ∧ (createInventoryHttp s newId data).2 = s := by
  have hfind : (findInventory s data.fragranceId).isSome := by
    obtain ⟨inv, hm, he⟩ := h
    unfold findInventory
    rw [List.find?_isSome]
    exact ⟨inv, hm, by simp [he]⟩
  obtain ⟨inv0, hinv0⟩ := Option.isSome_iff_exists.1 hfind
  have h1 : createInventory s newId data = .error (.alreadyExists data.fragranceId) := by
    unfold createInventory
    rw [hinv0]
  refine ⟨h1, ?_, ?_⟩
  · unfold createInventoryHttp; rw [h1]
  · unfold createInventoryHttp; rw [h1]

theorem createInventory_alreadyExists_witness :
    createInventory c2Store "i2" c7Dto = .error (.alreadyExists "f1") :=
  (createInventory_alreadyExists c2Store "i2" c7Dto ⟨c2Inv, by simp [c2Store], rfl⟩).1

/-! ### C10: defaults replace falsy supplied values -/

/-- C10.  A create call that explicitly supplies `currentLevelPercent = 0`
stores `100`, and an explicitly supplied `lowThresholdPercent = 0` is
stored as `20`: the `||`-defaults replace every falsy supplied value.
The created row is both returned and appended to the table. -/
theorem createInventory_falsy_defaults
    (s : Store) (newId : String) (data : CreateInventoryDto)
    (hlevel : data.currentLevel = some 0)
    (hthresh : data.lowThreshold = some 0)
    (hnone : findInventory s data.fragranceId = none) :
    (Except.map (fun r => (r.1.currentLevel, r.1.lowThreshold))
        (createInventory s newId data) = .ok ((100 : ℚ), (20 : ℚ)))
    ∧ ∀ r, createInventory s newId data = .ok r →
        r.2.inventories = s.inventories ++ [r.1] := by
  constructor
  · unfold createInventory
    rw [hnone]
    simp [hlevel, hthresh, Except.map, defaultLowThreshold]
  · intro r hr
    unfold createInventory at hr
    rw [hnone] at hr
    cases hr
    rfl

def c10Dto : CreateInventoryDto :=
  { fragranceId := "f9", bottleSize := 100, currentLevel := some 0,
    usageTracking := none, lowThreshold := some 0 }

def c10Store : Store :=
  { fragrances := [], inventories := [], usageLog := [], dailyWears := [] }

theorem createInventory_falsy_defaults_witness :
    Except.map (fun r => (r.1.currentLevel, r.1.lowThreshold))
        (createInventory c10Store "i9" c10Dto) = .ok ((100 : ℚ), (20 : ℚ)) :=
  (createInventory_falsy_defaults c10Store "i9" c10Dto rfl rfl rfl).1

/-! ### C8: wear recording tolerates inventory failures -/

theorem updateInventoryFromUsage_dailyWears
    (s : Store) (today : ℤ) (fid : String) (u : UsageEntry)
    (r : Inventory × Store)
    (h : updateInventoryFromUsage s today fid u = .ok r) :
    r.2.dailyWears = s.dailyWears := by
  unfold updateInventoryFromUsage at h
  cases hf : findInventory s fid with
  | none => rw [hf] at h; exact Except.noConfusion h
  | some inv =>
    rw [hf] at h
    cases htrack : inv.usageTracking with
    | true => simp only [htrack, if_true] at h; cases h; rfl
    | false => simp only [htrack, Bool.false_eq_true, if_false] at h; cases h; rfl

theorem processWearEntry_dailyWears (today date : ℤ) (acc : Store) (entry : DailyWearEntry) :
    (processWearEntry today date acc entry).dailyWears = acc.dailyWears := by
  unfold processWearEntry
  split
  · split
    · dsimp only
      split
      · rename_i fst s2 heq
        have h2 := updateInventoryFromUsage_dailyWears _ today entry.fragranceId _
          (fst, s2) heq
        simpa [appendUsage] using h2
      · rfl
    · rfl
  · rfl

theorem foldl_processWearEntry_dailyWears (today date : ℤ)
    (l : List DailyWearEntry) (s : Store) :
    (l.foldl (processWearEntry today date) s).dailyWears = s.dailyWears := by
  induction l generalizing s with
  | nil => rfl
  | cons e t ih =>
    rw [List.foldl_cons, ih, processWearEntry_dailyWears]

/-- C8.  Whenever no daily-wear record exists yet for this user and
date, `recordDailyWear` succeeds and returns the created record —
regardless of the inventory state, because every failure of the
transitive `updateInventoryFromUsage` call is caught inside the
per-entry loop. -/
theorem recordDailyWear_tolerates_inventory_failure
    (s : Store) (today : ℤ) (userId : String) (date : ℤ) (data : CreateDailyWearDto)
    (h : ∀ w ∈ s.dailyWears, ¬(w.userId = userId ∧ w.date = date)) :
    ∃ s1, recordDailyWear s today userId date data
        = .ok ({ userId := userId, date := date, entries := data.entries }, s1)
      ∧ s1.dailyWears = s.dailyWears
          ++ [{ userId := userId, date := date, entries := data.entries }] := by
  unfold recordDailyWear
  have hany : s.dailyWears.any (fun w => w.userId == userId && w.date == date) = false := by
    rw [List.any_eq_false]
    intro w hw
    simp only [Bool.and_eq_true, beq_iff_eq]
    exact fun hc => h w hw hc
  rw [hany]
  simp only [Bool.false_eq_true, if_false]
  exact ⟨_, rfl, by
    rw [foldl_processWearEntry_dailyWears]⟩

/-- Witness for C8: a wear entry of 5 sprays for a fragrance with no
inventory record (`updateInventoryFromUsage` would fail with NotFound)
still produces a successful daily-wear record, and the usage event is
still logged. -/
def c8Data : CreateDailyWearDto :=
  { date := 0, entries := [{ fragranceId := "fX", sprayCount := some 5, notes := none }] }

def c8Store : Store :=
  { fragrances := [], inventories := [], usageLog := [], dailyWears := [] }

theorem recordDailyWear_tolerates_inventory_failure_witness :
    findInventory c8Store "fX" = none
    ∧ ∃ s1, recordDailyWear c8Store 0 "u1" 0 c8Data
        = .ok ({ userId := "u1", date := 0, entries := c8Data.entries }, s1)
      ∧ s1.dailyWears = [{ userId := "u1", date := 0, entries := c8Data.entries }] := by
  refine ⟨rfl, ?_⟩
  obtain ⟨s1, h1, h2⟩ := recordDailyWear_tolerates_inventory_failure c8Store 0 "u1" 0 c8Data
    (by intro w hw; simp [c8Store] at hw)
  exact ⟨s1, h1, by simpa [c8Store] using h2⟩

/-! ### C9: low-stock alerts -/

def c9Frag1 : Fragrance :=
  { id := "f1", userId := "u1", name := "A", brand := "B", listType := .owned }

def c9Frag2 : Fragrance :=
  { id := "f2", userId := "u1", name := "C", brand := "D", listType := .owned }

def c9InvA : Inventory :=
  { id := "i1", fragranceId := "f1", bottleSize := 100, currentLevel := 10,
    usageTracking := true, lowThreshold := 20, estimatedDaysRemaining := some (.finite 5) }

def c9InvB : Inventory :=
  { id := "i2", fragranceId := "f2", bottleSize := 100, currentLevel := 50,
    usageTracking := true, lowThreshold := 20, estimatedDaysRemaining := none }

def c9Store : Store :=
  { fragrances := [c9Frag1, c9Frag2], inventories := [c9InvA, c9InvB],
    usageLog := [], dailyWears := [] }

/-- C9.  `ListLowStock` returns exactly the alerts of the owned-list
fragrances of the user whose inventory satisfies `currentLevelPercent ≤
lowThresholdPercent` (each alert carrying the cached
`estimatedDaysRemaining`), the result is sorted ascending by
`currentLevelPercent`, and on the concrete store with two owned
fragrances at 10% and 50% (thresholds 20%) it returns exactly the alert
for the 10% fragrance. -/
theorem getLowInventoryAlerts_spec :
    (∀ (s : Store) (userId : String) (a : LowInventoryAlert),
      a ∈ getLowInventoryAlerts s userId ↔
        ∃ f ∈ s.fragrances, f.userId = userId ∧ f.listType = ListType.owned ∧
          ∃ inv, findInventory s f.id = some inv ∧
            inv.currentLevel ≤ inv.lowThreshold ∧ a = mkAlert f inv)
    ∧ (∀ (s : Store) (userId : String),
        (getLowInventoryAlerts s userId).Pairwise
          (fun a b => a.currentLevel ≤ b.currentLevel))
    ∧ getLowInventoryAlerts c9Store "u1" = [mkAlert c9Frag1 c9InvA] := by
  refine ⟨?_, ?_, ?_⟩
  · intro s userId a
    unfold getLowInventoryAlerts
    dsimp only
    rw [List.mem_mergeSort, List.mem_filterMap]
    constructor
    · rintro ⟨f, hf, hfa⟩
      rw [ownedFragrances, List.mem_filter] at hf
      obtain ⟨hmem, hcond⟩ := hf
      simp only [Bool.and_eq_true, beq_iff_eq, decide_eq_true_eq] at hcond
      split at hfa
      · rename_i inv hfind
        split at hfa
        · rename_i hle
          cases hfa
          exact ⟨f, hmem, hcond.1, hcond.2, inv, hfind, hle, rfl⟩
        · exact Option.noConfusion hfa
      · exact Option.noConfusion hfa
    · rintro ⟨f, hmem, hu, hl, inv, hfind, hle, rfl⟩
      refine ⟨f, ?_, ?_⟩
      · rw [ownedFragrances, List.mem_filter]
        exact ⟨hmem, by simp [hu, hl]⟩
      · rw [hfind]
        simp [hle]
  · intro s userId
    unfold getLowInventoryAlerts
    dsimp only
    have htrans : ∀ a b c : LowInventoryAlert,
        decide (a.currentLevel ≤ b.currentLevel) →
        decide (b.currentLevel ≤ c.currentLevel) →
        decide (a.currentLevel ≤ c.currentLevel) := by
      intro a b c hab hbc
      simp only [decide_eq_true_eq] at *
      exact le_trans hab hbc
    have htotal : ∀ a b : LowInventoryAlert,
        decide (a.currentLevel ≤ b.currentLevel)
          || decide (b.currentLevel ≤ a.currentLevel) := by
      intro a b
      simp only [Bool.or_eq_true, decide_eq_true_eq]
      exact le_total _ _
    exact (List.sorted_mergeSort htrans htotal _).imp (fun h => by
      simpa using h)
  · have hfm : (ownedFragrances c9Store "u1").filterMap (fun f =>
        match findInventory c9Store f.id with
        | some inv =>
          if inv.currentLevel ≤ inv.lowThreshold then some (mkAlert f inv) else none
        | none => none) = [mkAlert c9Frag1 c9InvA] := by
      have h1 : findInventory c9Store "f1" = some c9InvA := rfl
      have h2 : findInventory c9Store "f2" = some c9InvB := rfl
      have hof : ownedFragrances c9Store "u1" = [c9Frag1, c9Frag2] := rfl
      rw [hof]
      norm_num [c9Frag1, c9Frag2, h1, h2, c9InvA, c9InvB, List.filterMap]
    unfold getLowInventoryAlerts
    dsimp only
    rw [hfm, List.mergeSort_singleton]

end FragTracker
